import Mathlib

/-!
Shallow embedding of the Reversi engine (Rust sources under src/) and proofs
about it.  The embedding mirrors, per file:

  * src/game/types.rs   : Cell, Player, Position, Move
  * src/game/board.rs   : Board (8x8 grid as a total function on Fin 8)
  * src/game/state.rs   : GameStatus, GameState and its transitions
  * src/game/rules.rs   : ReversiRules (legality, flips, apply, turn handling)
  * src/ai/strategies.rs: RandomAI::calculate_move
  * src/session/ai_battle_manager.rs : AiBattleSessionManager (assoc-list model)
  * src/api/ai_battle/dto.rs, service.rs, config_service.rs :
      AiBattleSession, make_player_move, calculate_move_with_fallback

Omissions, uniform across the embedding: UUID identities, chrono timestamps
(`created_at`, `last_updated`, `timestamp`, `last_move_at`), diagnostic
message strings inside error payloads, serde/HTTP material, and the async
sleeps (pure suspension points with no observable state effect).  The
external AI service (`dyn AIService`) is a parameter ("oracle") of the
service functions, exactly as it is dynamic dispatch in the source.
-/

namespace Reversi

instance {ε α : Type} [DecidableEq ε] [DecidableEq α] :
    DecidableEq (Except ε α) :=
  fun x y =>
    match x, y with
    | Except.ok a, Except.ok b =>
      if h : a = b then isTrue (by rw [h])
      else isFalse (by intro hc; cases hc; exact h rfl)
    | Except.error a, Except.error b =>
      if h : a = b then isTrue (by rw [h])
      else isFalse (by intro hc; cases hc; exact h rfl)
    | Except.ok _, Except.error _ => isFalse (fun hc => Except.noConfusion hc)
    | Except.error _, Except.ok _ => isFalse (fun hc => Except.noConfusion hc)

/-- Tri-state cell, from src/game/types.rs `Cell`. -/
inductive Cell where
  | Empty : Cell
  | Black : Cell
  | White : Cell
deriving DecidableEq, Repr

/-- Player enum, from src/game/types.rs `Player` (Black first, White second). -/
inductive Player where
  | Black : Player
  | White : Player
deriving DecidableEq, Repr

/-- `Player::opposite`. -/
def Player.opposite : Player → Player
  | Player.Black => Player.White
  | Player.White => Player.Black

/-- `Player::to_cell`. -/
def Player.to_cell : Player → Cell
  | Player.Black => Cell.Black
  | Player.White => Cell.White

/-- The value of `player as usize` in Rust: the declaration-order ordinal of
the fieldless enum `Player` (Black = 0, White = 1), used by RandomAI. -/
def Player.as_usize : Player → Nat
  | Player.Black => 0
  | Player.White => 1

/-- Coordinate pair, from src/game/types.rs `Position` (fields are `usize`). -/
structure Position where
  row : Nat
  col : Nat
deriving DecidableEq, Repr

/-- `Position::is_valid`. -/
def Position.is_valid (p : Position) : Bool :=
  decide (p.row < 8) && decide (p.col < 8)

/-- `Position::new`: bounds-checked constructor. -/
def Position.new (row col : Nat) : Option Position :=
  if row < 8 ∧ col < 8 then some ⟨row, col⟩ else none

/-- One move record, from src/game/types.rs `Move` (timestamp omitted). -/
structure Move where
  player : Player
  position : Position
  flipped : List Position
deriving DecidableEq, Repr

/-- 8x8 board, from src/game/board.rs `Board` (`cells: [[Cell; 8]; 8]`),
represented as a total function on in-range indices. -/
structure Board where
  cells : Fin 8 → Fin 8 → Cell

instance : DecidableEq Board :=
  fun a b =>
    decidable_of_iff (a.cells = b.cells) (by cases a; cases b; simp)

/-- `Board::new`: empty grid with the four standard centre pieces. -/
def Board.new : Board :=
  ⟨fun r c =>
    if (r.val = 3 ∧ c.val = 3) ∨ (r.val = 4 ∧ c.val = 4) then Cell.White
    else if (r.val = 3 ∧ c.val = 4) ∨ (r.val = 4 ∧ c.val = 3) then Cell.Black
    else Cell.Empty⟩

/-- `Board::get_cell`: `None` out of range. -/
def Board.get_cell (b : Board) (position : Position) : Option Cell :=
  if h : position.row < 8 ∧ position.col < 8 then
    some (b.cells ⟨position.row, h.1⟩ ⟨position.col, h.2⟩)
  else none

/-- `Board::set_cell`: writes in range, otherwise leaves the board unchanged
(the Rust function returns `false` there; every caller in rules.rs ignores
the returned bool). -/
def Board.set_cell (b : Board) (position : Position) (cell : Cell) : Board :=
  if position.row < 8 ∧ position.col < 8 then
    ⟨fun r c =>
      if r.val = position.row ∧ c.val = position.col then cell else b.cells r c⟩
  else b

/-- `Board::is_empty`. -/
def Board.is_empty (b : Board) (position : Position) : Bool :=
  match b.get_cell position with
  | some Cell.Empty => true
  | _ => false

/-- `Board::count_pieces`: (black count, white count). -/
def Board.count_pieces (b : Board) : Nat × Nat :=
  (List.finRange 8).foldl (fun acc r =>
    (List.finRange 8).foldl (fun acc2 c =>
      match b.cells r c with
      | Cell.Black => (acc2.1 + 1, acc2.2)
      | Cell.White => (acc2.1, acc2.2 + 1)
      | Cell.Empty => acc2) acc) (0, 0)

/-- Game status, from src/game/state.rs `GameStatus`. -/
inductive GameStatus where
  | InProgress : GameStatus
  | Finished : Option Player → Nat × Nat → GameStatus
  | Paused : GameStatus
deriving DecidableEq, Repr

/-- Game state, from src/game/state.rs `GameState` (id and the two
timestamps omitted). -/
structure GameState where
  board : Board
  current_player : Player
  game_status : GameStatus
  move_history : List Move
deriving DecidableEq

/-- `GameState::new`: initial board, Black to move, in progress. -/
def GameState.new : GameState :=
  { board := Board.new
    current_player := Player.Black
    game_status := GameStatus.InProgress
    move_history := [] }

/-- `GameState::is_finished`. -/
def GameState.is_finished (gs : GameState) : Bool :=
  match gs.game_status with
  | GameStatus.Finished _ _ => true
  | _ => false

/-- `GameState::is_paused`. -/
def GameState.is_paused (gs : GameState) : Bool :=
  match gs.game_status with
  | GameStatus.Paused => true
  | _ => false

/-- `GameState::switch_player`. -/
def GameState.switch_player (gs : GameState) : GameState :=
  { gs with current_player := gs.current_player.opposite }

/-- `GameState::add_move`. -/
def GameState.add_move (gs : GameState) (game_move : Move) : GameState :=
  { gs with move_history := gs.move_history ++ [game_move] }

/-- `GameState::pause`: only an InProgress game is paused. -/
def GameState.pause (gs : GameState) : GameState :=
  if gs.game_status = GameStatus.InProgress then
    { gs with game_status := GameStatus.Paused }
  else gs

/-- `GameState::resume`: only a Paused game is resumed. -/
def GameState.resume (gs : GameState) : GameState :=
  if gs.game_status = GameStatus.Paused then
    { gs with game_status := GameStatus.InProgress }
  else gs

/-- `GameState::finish`: records the winner and the final piece tally. -/
def GameState.finish (gs : GameState) (winner : Option Player) : GameState :=
  { gs with game_status := GameStatus.Finished winner gs.board.count_pieces }

/-- `GameState::get_move_count`. -/
def GameState.get_move_count (gs : GameState) : Nat :=
  gs.move_history.length

/-- AI error taxonomy, from src/error.rs `AIError` (message payloads
omitted). -/
inductive AIError where
  | Timeout : AIError
  | NoValidMoves : AIError
  | StrategyError : AIError
  | ServiceUnavailable : AIError
  | ConfigurationError : AIError
deriving DecidableEq, Repr

/-- Game error taxonomy, from src/error.rs `GameError` (payloads omitted;
`AIError`/`PersistenceError` wrappers kept as `AIFailure`/`PersistenceFailure`
to avoid shadowing the payload type names). -/
inductive GameError where
  | InvalidMove : GameError
  | GameNotFound : GameError
  | GameFinished : GameError
  | AIFailure : AIError → GameError
  | PersistenceFailure : GameError
  | SessionLimitExceeded : GameError
deriving DecidableEq, Repr

/-- The 8 direction vectors of src/game/rules.rs `DIRECTIONS`. -/
def DIRECTIONS : List (Int × Int) :=
  [(-1, -1), (-1, 0), (-1, 1), (0, -1), (0, 1), (1, -1), (1, 0), (1, 1)]

/-- The inner `while` loop of `ReversiRules::get_flipped_positions` for a
single direction: walk outward accumulating opponent cells, and return the
accumulated run when a mover cell is reached (commit), or `[]` when the walk
reaches Empty, an out-of-range coordinate, or the board edge (discard).
The fuel bound 8 strictly exceeds the longest possible in-range walk from an
in-range start cell, so the fuel never runs out on the inputs the rules use. -/
def scan_direction (b : Board) (player_cell opponent_cell : Cell)
    (dr dc : Int) : Int → Int → List Position → Nat → List Position
  | _, _, _, 0 => []
  | r, c, line_flipped, fuel + 1 =>
    if 0 ≤ r ∧ r < 8 ∧ 0 ≤ c ∧ c < 8 then
      match b.get_cell ⟨r.toNat, c.toNat⟩ with
      | some cell =>
        if cell = opponent_cell then
          scan_direction b player_cell opponent_cell dr dc (r + dr) (c + dc)
            (line_flipped ++ [(⟨r.toNat, c.toNat⟩ : Position)]) fuel
        else if cell = player_cell then line_flipped
        else []
      | none => []
    else []

/-- `ReversiRules::get_flipped_positions`: union (in direction order) of the
committed runs of all 8 directions. -/
def get_flipped_positions (b : Board) (position : Position) (player : Player) :
    List Position :=
  DIRECTIONS.foldl (fun flipped d =>
    flipped ++ scan_direction b player.to_cell player.opposite.to_cell d.1 d.2
      ((position.row : Int) + d.1) ((position.col : Int) + d.2) [] 8) []

/-- `ReversiRules::is_valid_move`: empty cell and at least one flip. -/
def is_valid_move (b : Board) (position : Position) (player : Player) : Bool :=
  if b.is_empty position = false then false
  else decide ((get_flipped_positions b position player).length > 0)

/-- `ReversiRules::get_valid_moves`: row-major scan of all 64 coordinates. -/
def get_valid_moves (b : Board) (player : Player) : List Position :=
  (List.range 8).foldl (fun valid_moves row =>
    (List.range 8).foldl (fun valid_moves2 col =>
      match Position.new row col with
      | some position =>
        if is_valid_move b position player then valid_moves2 ++ [position]
        else valid_moves2
      | none => valid_moves2) valid_moves) []

/-- `ReversiRules::apply_move`.  The Rust function mutates the state through
`&mut`; here the (result, final state) pair is returned, with the state
unchanged on the error paths exactly as the early returns leave it. -/
def apply_move (gs : GameState) (position : Position) :
    Except GameError (List Position) × GameState :=
  if gs.is_finished then (Except.error GameError.GameFinished, gs)
  else if is_valid_move gs.board position gs.current_player = false then
    (Except.error GameError.InvalidMove, gs)
  else
    let flipped_positions := get_flipped_positions gs.board position gs.current_player
    let b1 := gs.board.set_cell position gs.current_player.to_cell
    let b2 := flipped_positions.foldl
      (fun b flip_pos => b.set_cell flip_pos gs.current_player.to_cell) b1
    let gs1 := { gs with board := b2 }
    let gs2 := gs1.add_move ⟨gs.current_player, position, flipped_positions⟩
    (Except.ok flipped_positions, gs2)

/-- `ReversiRules::has_valid_moves`. -/
def has_valid_moves (b : Board) (player : Player) : Bool :=
  decide ((get_valid_moves b player).length > 0)

/-- `ReversiRules::is_game_over`: neither player has a legal move. -/
def is_game_over (b : Board) : Bool :=
  !has_valid_moves b Player.Black && !has_valid_moves b Player.White

/-- `ReversiRules::determine_winner`: higher tally wins, tie yields none
(the destructured `(black_count, white_count)` pair is used via `.1`/`.2`). -/
def determine_winner (b : Board) : Option Player :=
  if b.count_pieces.1 > b.count_pieces.2 then some Player.Black
  else if b.count_pieces.2 > b.count_pieces.1 then some Player.White
  else none

/-- `ReversiRules::handle_turn`: pass handling and termination; returns
(whether the turn switched or the game ended, final state). -/
def handle_turn (gs : GameState) : Bool × GameState :=
  if has_valid_moves gs.board gs.current_player then (false, gs)
  else
    let gs1 := gs.switch_player
    if has_valid_moves gs1.board gs1.current_player then (true, gs1)
    else
      let winner := determine_winner gs1.board
      (true, gs1.finish winner)

/-- `RandomAI::calculate_move` from src/ai/strategies.rs: deterministic
pseudo-random pick from the legal move list. -/
def RandomAI_calculate_move (gs : GameState) : Except AIError Position :=
  if gs.is_finished then Except.error AIError.StrategyError
  else
    let valid_moves := get_valid_moves gs.board gs.current_player
    if h : valid_moves.length = 0 then Except.error AIError.NoValidMoves
    else
      let index := (gs.get_move_count * 7 + gs.current_player.as_usize * 3) %
        valid_moves.length
      Except.ok (valid_moves.get
        ⟨index, Nat.mod_lt _ (Nat.pos_of_ne_zero h)⟩)

/-- AI difficulty of the battle API, from src/api/ai_battle/dto.rs
`AiDifficulty`. -/
inductive AiDifficulty where
  | Easy : AiDifficulty
  | Medium : AiDifficulty
  | Hard : AiDifficulty
deriving DecidableEq, Repr

/-- Per-session move record, from dto.rs `MoveRecord` (timestamp omitted). -/
structure MoveRecord where
  player : Player
  position : Position
  thinking_time_ms : Option Nat
deriving DecidableEq, Repr

/-- Session-level status, from dto.rs `GameStatus` (renamed to avoid the
clash with the engine's `GameStatus` of state.rs). -/
inductive SessionStatus where
  | InProgress : SessionStatus
  | Finished : Option Player → SessionStatus
deriving DecidableEq, Repr

/-- Battle session, from dto.rs `AiBattleSession` (id and the two timestamps
omitted). -/
structure AiBattleSession where
  game_state : GameState
  ai_difficulty : AiDifficulty
  current_player : Player
  ai_thinking : Bool
  move_history : List MoveRecord
  status : SessionStatus
deriving DecidableEq

/-- `AiBattleSession::new`. -/
def AiBattleSession.new (ai_difficulty : AiDifficulty) : AiBattleSession :=
  { game_state := GameState.new
    ai_difficulty := ai_difficulty
    current_player := GameState.new.current_player
    ai_thinking := false
    move_history := []
    status := SessionStatus.InProgress }

/-- `AiBattleSession::is_ai_turn`. -/
def AiBattleSession.is_ai_turn (s : AiBattleSession) : Bool :=
  decide (s.current_player = Player.White) && !s.ai_thinking

/-- `AiBattleSession::is_player_turn`. -/
def AiBattleSession.is_player_turn (s : AiBattleSession) : Bool :=
  decide (s.current_player = Player.Black)

/-- `AiBattleSession::add_move_record` (the `last_move_at` touch is an
omitted timestamp). -/
def AiBattleSession.add_move_record (s : AiBattleSession)
    (move_record : MoveRecord) : AiBattleSession :=
  { s with move_history := s.move_history ++ [move_record] }

/-- `AiBattleSession::is_finished` (on the session-level status). -/
def AiBattleSession.is_finished (s : AiBattleSession) : Bool :=
  match s.status with
  | SessionStatus.Finished _ => true
  | _ => false

/-- Battle-API error taxonomy, from dto.rs `AiBattleError` (string payloads
omitted; the wrapping constructors `GameError(..)`/`AIError(..)` are kept
as `GameErrorW`/`AIErrorW` to avoid shadowing the payload type names). -/
inductive AiBattleError where
  | GameNotFound : AiBattleError
  | InvalidMove : AiBattleError
  | NotPlayerTurn : AiBattleError
  | InvalidDifficulty : AiBattleError
  | MaxSessionsReached : Nat → AiBattleError
  | AiThinkingError : AiBattleError
  | GameAlreadyFinished : AiBattleError
  | BadRequest : AiBattleError
  | InternalError : AiBattleError
  | GameErrorW : GameError → AiBattleError
  | AIErrorW : AIError → AiBattleError
deriving DecidableEq, Repr

/-- Session registry, from src/session/ai_battle_manager.rs
`AiBattleSessionManager`.  The DashMap is modelled as an association list
keyed by `Nat` (standing for the Uuid); `session_timeout_minutes` is kept
but the idle sweep (pure wall-clock behaviour) is not modelled. -/
structure AiBattleSessionManager where
  sessions : List (Nat × AiBattleSession)
  max_sessions : Nat
  session_timeout_minutes : Int
deriving DecidableEq

/-- Key membership in the association list (DashMap key lookup). -/
def assoc_lookup : List (Nat × AiBattleSession) → Nat → Option AiBattleSession
  | [], _ => none
  | kv :: rest, id => if kv.1 = id then some kv.2 else assoc_lookup rest id

/-- DashMap `insert`: replaces the entry of an existing key, otherwise adds
a new entry. -/
def assoc_insert : List (Nat × AiBattleSession) → Nat → AiBattleSession →
    List (Nat × AiBattleSession)
  | [], id, s => [(id, s)]
  | kv :: rest, id, s =>
    if kv.1 = id then (id, s) :: rest else kv :: assoc_insert rest id s

/-- DashMap `remove`: drops the (single) entry of the key, if present. -/
def assoc_remove : List (Nat × AiBattleSession) → Nat →
    List (Nat × AiBattleSession)
  | [], _ => []
  | kv :: rest, id => if kv.1 = id then rest else kv :: assoc_remove rest id

/-- `AiBattleSessionManager::create_session`.  `fresh_id` stands for the
freshly drawn `Uuid::new_v4()` of the source. -/
def create_session (m : AiBattleSessionManager) (fresh_id : Nat)
    (difficulty : AiDifficulty) :
    Except AiBattleError Nat × AiBattleSessionManager :=
  if m.sessions.length ≥ m.max_sessions then
    (Except.error (AiBattleError.MaxSessionsReached m.max_sessions), m)
  else
    let inserted := assoc_insert m.sessions fresh_id (AiBattleSession.new difficulty)
    (Except.ok fresh_id, { m with sessions := inserted })

/-- `AiBattleSessionManager::remove_session`. -/
def remove_session (m : AiBattleSessionManager) (id : Nat) :
    Except AiBattleError AiBattleSession × AiBattleSessionManager :=
  match assoc_lookup m.sessions id with
  | some s => (Except.ok s, { m with sessions := assoc_remove m.sessions id })
  | none => (Except.error AiBattleError.GameNotFound, m)

/-- A create or remove request against the registry, for stating the
admission-control invariant over arbitrary operation sequences. -/
inductive MgrOp where
  | createOp : Nat → AiDifficulty → MgrOp
  | removeOp : Nat → MgrOp
deriving DecidableEq, Repr

/-- State effect of one registry request (the returned value is dropped). -/
def applyMgrOp (m : AiBattleSessionManager) : MgrOp → AiBattleSessionManager
  | MgrOp.createOp id d => (create_session m id d).2
  | MgrOp.removeOp id => (remove_session m id).2

/-- State effect of a sequence of registry requests. -/
def applyMgrOps (ops : List MgrOp) (m : AiBattleSessionManager) :
    AiBattleSessionManager :=
  ops.foldl applyMgrOp m

/-- Successful AI service reply, from src/ai/service.rs `AIMoveResult`
(only the fields the orchestrator reads). -/
structure AIMoveResult where
  position : Position
  thinking_time_ms : Nat
deriving DecidableEq, Repr

/-- The pluggable `dyn AIService::calculate_move` entry point the
orchestrator calls (dynamic dispatch in the source, a parameter here). -/
def AIOracle : Type :=
  GameState → AiDifficulty → Except AIError AIMoveResult

/-- The winner stored inside a Finished engine status, as extracted by the
`if let GameStatus::Finished { winner, .. }`-with-`else None` pattern of
src/api/ai_battle/service.rs. -/
def status_winner : GameStatus → Option Player
  | GameStatus.Finished w _ => w
  | _ => none

/-- `AiBattleService::process_ai_move` (service.rs lines 166-204): asks the
oracle, records the AI move, applies it, switches the player and runs the
termination check.  Returned is (result, session as left by the body),
since the source mutates the session through `&mut` even on failure. -/
def process_ai_move (oracle : AIOracle) (session : AiBattleSession) :
    Except AiBattleError Position × AiBattleSession :=
  match oracle session.game_state session.ai_difficulty with
  | Except.error _ => (Except.error AiBattleError.AiThinkingError, session)
  | Except.ok ai_result =>
    let ai_position := ai_result.position
    let s1 := session.add_move_record
      ⟨Player.White, ai_position, some ai_result.thinking_time_ms⟩
    match apply_move s1.game_state ai_position with
    | (Except.error e, gsE) =>
      (Except.error (AiBattleError.GameErrorW e), { s1 with game_state := gsE })
    | (Except.ok _, gs1) =>
      let gs2 := gs1.switch_player
      let gs3 := if is_game_over gs2.board then
          gs2.finish (determine_winner gs2.board)
        else gs2
      let s2 := { s1 with game_state := gs3 }
      let s3 := if gs3.is_finished then
          { s2 with status := SessionStatus.Finished (status_winner gs3.game_status) }
        else s2
      (Except.ok ai_position, { s3 with current_player := gs3.current_player })

/-- The move reply, from dto.rs `MoveResponse` (the embedded state snapshot
and message string omitted). -/
structure MoveResponse where
  success : Bool
  player_move : Position
  ai_move : Option Position
deriving DecidableEq, Repr

/-- `AiBattleService::make_player_move` (service.rs lines 71-164) on one
session.  The second component lists, in order, the session values handed
to `session_manager.update_session` (the persists); registry lookup and
update success are implicit since a single session is modelled. -/
def make_player_move (oracle : AIOracle) (session : AiBattleSession)
    (position : Position) :
    Except AiBattleError MoveResponse × List AiBattleSession :=
  if session.is_finished then (Except.error AiBattleError.GameAlreadyFinished, [])
  else if session.is_player_turn = false then
    (Except.error AiBattleError.NotPlayerTurn, [])
  else if session.ai_thinking then (Except.error AiBattleError.AiThinkingError, [])
  else if is_valid_move session.game_state.board position session.current_player
      = false then
    (Except.error AiBattleError.InvalidMove, [])
  else
    match apply_move session.game_state position with
    | (Except.error e, _) => (Except.error (AiBattleError.GameErrorW e), [])
    | (Except.ok _, gs1) =>
      let gs2 := gs1.switch_player
      let gs3 := if is_game_over gs2.board then
          gs2.finish (determine_winner gs2.board)
        else gs2
      if gs3.is_finished then
        let s1 := { session with
          game_state := gs3
          status := SessionStatus.Finished (status_winner gs3.game_status)
          current_player := gs3.current_player }
        (Except.ok ⟨true, position, none⟩, [s1])
      else
        let s1 := { session with
          game_state := gs3
          current_player := gs3.current_player }
        if s1.is_ai_turn = false then
          (Except.ok ⟨true, position, none⟩, [s1])
        else
          let sT := { s1 with ai_thinking := true }
          match process_ai_move oracle sT with
          | (Except.ok ai_position, s2) =>
            let s3 := { s2 with ai_thinking := false }
            (Except.ok ⟨true, position, some ai_position⟩, [sT, s3])
          | (Except.error e, s2) =>
            let s3 := { s2 with ai_thinking := false }
            (Except.error e, [sT, s3])

/-- Retry/fallback configuration, from src/config.rs `FallbackConfig`
(`fallback_ai_service` selection omitted: the secondary adapter itself is a
parameter below). -/
structure FallbackConfig where
  enable_fallback : Bool
  max_retry_attempts : Nat
  retry_delay_ms : Nat
deriving DecidableEq, Repr

/-- One adapter attempt stream: the `calculate_move` outcome of the adapter
at the n-th call made to it (1-based), standing for the awaited service
call of the source. -/
def AttemptOracle : Type :=
  Nat → Except AIError AIMoveResult

/-- The retry loop of `ConfigurableAiBattleService::calculate_move_with_fallback`
(config_service.rs lines 145-187).  A terminal failure carries the last
primary error together with the attempt count, modelling the formatted
`AiThinkingError` details string; the back-off sleep is a pure suspension
with no state effect. -/
def fb_loop (cfg : FallbackConfig) (primary : AttemptOracle)
    (fallback : Option AttemptOracle) (attempts : Nat) :
    Except (AIError × Nat) AIMoveResult :=
  let a := attempts + 1
  match primary a with
  | Except.ok result => Except.ok result
  | Except.error e =>
    if h : cfg.enable_fallback = true ∧ a < cfg.max_retry_attempts then
      match fallback with
      | some fb =>
        match fb a with
        | Except.ok result => Except.ok result
        | Except.error _ => fb_loop cfg primary fallback a
      | none => fb_loop cfg primary fallback a
    else Except.error (e, a)
termination_by cfg.max_retry_attempts - attempts
decreasing_by
  all_goals
    obtain ⟨h1, h2⟩ := h
    omega

/-- `ConfigurableAiBattleService::calculate_move_with_fallback`: the loop
started with zero attempts made. -/
def calculate_move_with_fallback (cfg : FallbackConfig)
    (primary : AttemptOracle) (fallback : Option AttemptOracle) :
    Except (AIError × Nat) AIMoveResult :=
  fb_loop cfg primary fallback 0

/-- Coarse status family (used to state the status state machine without
the winner/score payload of Finished). -/
inductive StatusTag where
  | inProgress : StatusTag
  | paused : StatusTag
  | finished : StatusTag
deriving DecidableEq, Repr

/-- The coarse family of a status. -/
def statusTag : GameStatus → StatusTag
  | GameStatus.InProgress => StatusTag.inProgress
  | GameStatus.Paused => StatusTag.paused
  | GameStatus.Finished _ _ => StatusTag.finished

/-- One status-transition request on a GameState: pause, resume, or an
explicit finish (state.rs lines 93-117). -/
inductive StateOp where
  | pauseOp : StateOp
  | resumeOp : StateOp
  | finishOp : Option Player → StateOp
deriving DecidableEq, Repr

/-- Apply one transition request. -/
def applyStateOp (op : StateOp) (gs : GameState) : GameState :=
  match op with
  | StateOp.pauseOp => gs.pause
  | StateOp.resumeOp => gs.resume
  | StateOp.finishOp w => gs.finish w

/-- Apply a sequence of transition requests, in order. -/
def applyStateOps (ops : List StateOp) (gs : GameState) : GameState :=
  ops.foldl (fun g op => applyStateOp op g) gs

/-- The transitions of the spec diagram InProgress↔Paused→Finished: stay
put, move between InProgress and Paused, or move into Finished; no edge
leaves Finished. -/
def allowedStatusStep (a b : StatusTag) : Prop :=
  a = b ∨
  (a = StatusTag.inProgress ∧ b = StatusTag.paused) ∨
  (a = StatusTag.paused ∧ b = StatusTag.inProgress) ∨
  (a = StatusTag.inProgress ∧ b = StatusTag.finished) ∨
  (a = StatusTag.paused ∧ b = StatusTag.finished)

/-- A concrete finished game state, used by witnesses. -/
def finishedSample : GameState :=
  { board := Board.new
    current_player := Player.Black
    game_status := GameStatus.Finished (some Player.Black) (2, 2)
    move_history := [] }

/-- A board whose first row is Black,White,White,White,White then empty:
White has no legal move there while Black does; used by witnesses. -/
def lineBoard : Board :=
  ⟨fun r c =>
    if r.val = 0 ∧ c.val = 0 then Cell.Black
    else if r.val = 0 ∧ c.val ≤ 4 then Cell.White
    else Cell.Empty⟩

/-- A game state where the mover (White) must pass, used by witnesses. -/
def passSample : GameState :=
  { board := lineBoard
    current_player := Player.White
    game_status := GameStatus.InProgress
    move_history := [] }

/-- The all-empty board, on which neither player has a legal move. -/
def emptyBoard : Board :=
  ⟨fun _ _ => Cell.Empty⟩

/-- A game state on the empty board (no moves for either side), used by
witnesses. -/
def emptySample : GameState :=
  { board := emptyBoard
    current_player := Player.Black
    game_status := GameStatus.InProgress
    move_history := [] }

/-- A one-slot registry already holding one session, used by witnesses. -/
def mgrSample : AiBattleSessionManager :=
  { sessions := [(0, AiBattleSession.new AiDifficulty.Easy)]
    max_sessions := 1
    session_timeout_minutes := 30 }

/-- A board where Black playing (0,2) captures (0,1) and ends the game,
used by witnesses. -/
def endBoard : Board :=
  ⟨fun r c =>
    if r.val = 0 ∧ c.val = 0 then Cell.Black
    else if r.val = 0 ∧ c.val = 1 then Cell.White
    else Cell.Empty⟩

/-- A session on `endBoard` with Black (the human) to move, used by
witnesses. -/
def endSession : AiBattleSession :=
  { game_state :=
      { board := endBoard
        current_player := Player.Black
        game_status := GameStatus.InProgress
        move_history := [] }
    ai_difficulty := AiDifficulty.Easy
    current_player := Player.Black
    ai_thinking := false
    move_history := []
    status := SessionStatus.InProgress }

/-- A board where (0,2) is legal both for Black (capturing (0,1)) and for
White (capturing (0,3)), used by the pass-back witness. -/
def desyncBoard : Board :=
  ⟨fun r c =>
    if r.val = 0 ∧ (c.val = 0 ∨ c.val = 3) then Cell.Black
    else if r.val = 0 ∧ (c.val = 1 ∨ c.val = 4) then Cell.White
    else Cell.Empty⟩

/-- A session whose own `current_player` (Black) disagrees with its engine
state's mover (White); the service checks the former but applies with the
latter, so after the move it is Black's turn again (a pass-back input). -/
def desyncSession : AiBattleSession :=
  { game_state :=
      { board := desyncBoard
        current_player := Player.White
        game_status := GameStatus.InProgress
        move_history := [] }
    ai_difficulty := AiDifficulty.Easy
    current_player := Player.Black
    ai_thinking := false
    move_history := []
    status := SessionStatus.InProgress }

/-- An opponent service that always fails, used by witnesses. -/
def failingOracle : AIOracle :=
  fun _ _ => Except.error AIError.Timeout

/-- The thinking-flagged session reached after Black plays (2,3) from the
fresh session, used by the C8 witness. -/
def sTSample : AiBattleSession :=
  { { AiBattleSession.new AiDifficulty.Easy with
        game_state := (apply_move GameState.new ⟨2, 3⟩).2.switch_player
        current_player :=
          ((apply_move GameState.new ⟨2, 3⟩).2.switch_player).current_player }
    with ai_thinking := true }

/-- A primary adapter failing on every attempt, used by witnesses. -/
def failingPrimary : AttemptOracle :=
  fun _ => Except.error AIError.Timeout

/-- A secondary adapter failing on every attempt, used by witnesses. -/
def failingFallback : AttemptOracle :=
  fun _ => Except.error AIError.ServiceUnavailable

lemma applyStateOp_allowed (gs : GameState) (op : StateOp) :
    allowedStatusStep (statusTag gs.game_status)
      (statusTag (applyStateOp op gs).game_status) := by
  cases op with
  | pauseOp =>
    by_cases h : gs.game_status = GameStatus.InProgress
    · simp [applyStateOp, GameState.pause, h, statusTag, allowedStatusStep]
    · simp [applyStateOp, GameState.pause, h, allowedStatusStep]
  | resumeOp =>
    by_cases h : gs.game_status = GameStatus.Paused
    · simp [applyStateOp, GameState.resume, h, statusTag, allowedStatusStep]
    · simp [applyStateOp, GameState.resume, h, allowedStatusStep]
  | finishOp w =>
    cases hgs : gs.game_status <;>
      simp [applyStateOp, GameState.finish, hgs, statusTag, allowedStatusStep]

lemma applyStateOp_keeps_finished (op : StateOp) (gs : GameState)
    (h : statusTag gs.game_status = StatusTag.finished) :
    statusTag (applyStateOp op gs).game_status = StatusTag.finished := by
  cases hgs : gs.game_status with
  | Finished w sc =>
    cases op <;>
      simp [applyStateOp, GameState.pause, GameState.resume, GameState.finish,
        hgs, statusTag]
  | InProgress => rw [hgs] at h; simp [statusTag] at h
  | Paused => rw [hgs] at h; simp [statusTag] at h

lemma applyStateOps_keeps_finished (ops : List StateOp) (gs : GameState)
    (h : statusTag gs.game_status = StatusTag.finished) :
    statusTag (applyStateOps ops gs).game_status = StatusTag.finished := by
  induction ops generalizing gs with
  | nil => simpa [applyStateOps] using h
  | cons op rest ih =>
    have h1 := applyStateOp_keeps_finished op gs h
    simpa [applyStateOps] using ih (applyStateOp op gs) h1

lemma pause_noop (gs : GameState) (h : gs.game_status ≠ GameStatus.InProgress) :
    gs.pause = gs := by
  simp [GameState.pause, h]

lemma resume_noop (gs : GameState) (h : gs.game_status ≠ GameStatus.Paused) :
    gs.resume = gs := by
  simp [GameState.resume, h]

lemma is_finished_tag (gs : GameState) :
    gs.is_finished = true ↔ statusTag gs.game_status = StatusTag.finished := by
  cases hgs : gs.game_status <;> simp [GameState.is_finished, hgs, statusTag]

/-- C4: across every sequence of pause, resume and finish requests, the
status only steps along InProgress↔Paused→Finished and never leaves
Finished; pause is a no-op unless the status is InProgress (so pausing a
Finished game leaves it Finished), and resume is a no-op unless the status
is Paused. -/
theorem C4_status_state_machine :
    (∀ (gs : GameState) (op : StateOp),
      allowedStatusStep (statusTag gs.game_status)
        (statusTag (applyStateOp op gs).game_status)) ∧
    (∀ (gs : GameState) (ops : List StateOp),
      statusTag gs.game_status = StatusTag.finished →
      statusTag (applyStateOps ops gs).game_status = StatusTag.finished) ∧
    (∀ gs : GameState, gs.game_status ≠ GameStatus.InProgress → gs.pause = gs) ∧
    (∀ gs : GameState, gs.game_status ≠ GameStatus.Paused → gs.resume = gs) ∧
    (∀ gs : GameState, gs.is_finished = true → gs.pause.is_finished = true) := by
  refine ⟨applyStateOp_allowed, ?_, pause_noop, resume_noop, ?_⟩
  · intro gs ops h
    exact applyStateOps_keeps_finished ops gs h
  · intro gs h
    have h1 : gs.game_status ≠ GameStatus.InProgress := by
      cases hgs : gs.game_status <;>
        simp [GameState.is_finished, hgs] at h ⊢
    rw [pause_noop gs h1]
    exact h

lemma get_cell_some_valid (b : Board) (pos : Position) (c : Cell)
    (h : b.get_cell pos = some c) : pos.row < 8 ∧ pos.col < 8 := by
  unfold Board.get_cell at h
  split at h
  · assumption
  · cases h

lemma is_empty_spec (b : Board) (pos : Position) (h : b.is_empty pos = true) :
    pos.row < 8 ∧ pos.col < 8 ∧ b.get_cell pos = some Cell.Empty := by
  unfold Board.is_empty at h
  cases hgc : b.get_cell pos with
  | none => rw [hgc] at h; cases h
  | some c =>
    cases c with
    | Empty =>
      have hv := get_cell_some_valid b pos _ hgc
      exact ⟨hv.1, hv.2, rfl⟩
    | Black => rw [hgc] at h; cases h
    | White => rw [hgc] at h; cases h

lemma get_set_same (b : Board) (p : Position) (cell : Cell)
    (h : p.row < 8 ∧ p.col < 8) :
    (b.set_cell p cell).get_cell p = some cell := by
  simp [Board.set_cell, Board.get_cell, h]

lemma get_preserved_of_same_cell (b : Board) (p q : Position) (cell : Cell)
    (hq : q.row < 8 ∧ q.col < 8) (hold : b.get_cell q = some cell) :
    (b.set_cell p cell).get_cell q = some cell := by
  by_cases hp : p.row < 8 ∧ p.col < 8
  · by_cases hco : q.row = p.row ∧ q.col = p.col
    · simp [Board.set_cell, Board.get_cell, hp, hq, hco]
    · have hold2 : b.cells ⟨q.row, hq.1⟩ ⟨q.col, hq.2⟩ = cell := by
        simp [Board.get_cell, hq] at hold
        exact hold
      simp [Board.set_cell, Board.get_cell, hp, hq, hco, hold2]
  · simpa [Board.set_cell, hp] using hold

lemma foldl_set_preserves (l : List Position) (b : Board) (q : Position)
    (cell : Cell) (hq : q.row < 8 ∧ q.col < 8)
    (hold : b.get_cell q = some cell) :
    (l.foldl (fun b2 p => b2.set_cell p cell) b).get_cell q = some cell := by
  induction l generalizing b with
  | nil => simpa using hold
  | cons p rest ih =>
    exact ih _ (get_preserved_of_same_cell b p q cell hq hold)

lemma foldl_set_mem (l : List Position) (b : Board) (q : Position)
    (cell : Cell) (hq : q.row < 8 ∧ q.col < 8) (hmem : q ∈ l) :
    (l.foldl (fun b2 p => b2.set_cell p cell) b).get_cell q = some cell := by
  induction l generalizing b with
  | nil => cases hmem
  | cons p rest ih =>
    rcases List.mem_cons.mp hmem with h | h
    · subst h
      exact foldl_set_preserves rest _ q cell hq (get_set_same b q cell hq)
    · exact ih _ h

lemma scan_direction_mem (b : Board) (pcell ocell : Cell) (dr dc : Int) :
    ∀ (fuel : Nat) (r c : Int) (acc : List Position) (q : Position),
      q ∈ scan_direction b pcell ocell dr dc r c acc fuel →
      q ∈ acc ∨ (q.row < 8 ∧ q.col < 8 ∧ b.get_cell q = some ocell) := by
  intro fuel
  induction fuel with
  | zero =>
    intro r c acc q h
    simp [scan_direction] at h
  | succ n ih =>
    intro r c acc q h
    rw [scan_direction] at h
    split at h
    case isFalse => simp at h
    case isTrue hb =>
      cases hgc : b.get_cell ⟨r.toNat, c.toNat⟩ with
      | none => simp only [hgc] at h; simp at h
      | some cell =>
        simp only [hgc] at h
        by_cases hoc : cell = ocell
        · rw [if_pos hoc] at h
          rcases ih _ _ _ _ h with hin | hgood
          · rcases List.mem_append.mp hin with hacc | hcur
            · exact Or.inl hacc
            · right
              have hq : q = ⟨r.toNat, c.toNat⟩ := by simpa using hcur
              subst hq
              have hv := get_cell_some_valid b _ _ hgc
              rw [hoc] at hgc
              exact ⟨hv.1, hv.2, hgc⟩
          · exact Or.inr hgood
        · rw [if_neg hoc] at h
          by_cases hpc : cell = pcell
          · rw [if_pos hpc] at h
            exact Or.inl h
          · rw [if_neg hpc] at h
            simp at h

lemma foldl_append_eq_join {α β : Type} (f : α → List β) :
    ∀ (l : List α) (acc : List β),
      l.foldl (fun a d => a ++ f d) acc = acc ++ (l.map f).flatten := by
  intro l
  induction l with
  | nil => simp
  | cons d rest ih => intro acc; simp [ih, List.append_assoc]

lemma get_flipped_eq_join (b : Board) (pos : Position) (player : Player) :
    get_flipped_positions b pos player =
      (DIRECTIONS.map (fun d =>
        scan_direction b player.to_cell player.opposite.to_cell d.1 d.2
          ((pos.row : Int) + d.1) ((pos.col : Int) + d.2) [] 8)).flatten := by
  unfold get_flipped_positions
  rw [foldl_append_eq_join]
  simp

lemma flips_mem (b : Board) (pos : Position) (player : Player) (q : Position)
    (h : q ∈ get_flipped_positions b pos player) :
    q.row < 8 ∧ q.col < 8 ∧ b.get_cell q = some player.opposite.to_cell := by
  rw [get_flipped_eq_join] at h
  rw [List.mem_flatten] at h
  obtain ⟨l, hl, hq⟩ := h
  rw [List.mem_map] at hl
  obtain ⟨d, _, rfl⟩ := hl
  rcases scan_direction_mem b _ _ d.1 d.2 8 _ _ [] q hq with h0 | hgood
  · cases h0
  · exact hgood

lemma is_valid_move_iff (b : Board) (pos : Position) (player : Player) :
    is_valid_move b pos player = true ↔
      (b.is_empty pos = true ∧ get_flipped_positions b pos player ≠ []) := by
  unfold is_valid_move
  by_cases hemp : b.is_empty pos = false
  · rw [hemp]
    simp
  · have hemp2 : b.is_empty pos = true := by
      revert hemp; cases b.is_empty pos <;> simp
    rw [hemp2]
    simp [List.length_pos]

lemma apply_move_finished (gs : GameState) (pos : Position)
    (h : gs.is_finished = true) :
    apply_move gs pos = (Except.error GameError.GameFinished, gs) := by
  simp [apply_move, h]

lemma apply_move_invalid (gs : GameState) (pos : Position)
    (h1 : gs.is_finished = false)
    (h2 : is_valid_move gs.board pos gs.current_player = false) :
    apply_move gs pos = (Except.error GameError.InvalidMove, gs) := by
  simp [apply_move, h1, h2]

lemma apply_move_ok_eq (gs : GameState) (pos : Position)
    (h1 : gs.is_finished = false)
    (h2 : is_valid_move gs.board pos gs.current_player = true) :
    apply_move gs pos =
      (Except.ok (get_flipped_positions gs.board pos gs.current_player),
       { gs with
           board := (get_flipped_positions gs.board pos gs.current_player).foldl
             (fun b q => b.set_cell q gs.current_player.to_cell)
             (gs.board.set_cell pos gs.current_player.to_cell)
           move_history := gs.move_history ++
             [⟨gs.current_player, pos,
               get_flipped_positions gs.board pos gs.current_player⟩] }) := by
  simp [apply_move, h1, h2, GameState.add_move]

lemma apply_move_error_state (gs : GameState) (pos : Position) (e : GameError)
    (h : (apply_move gs pos).1 = Except.error e) :
    (apply_move gs pos).2 = gs := by
  by_cases h1 : gs.is_finished = true
  · rw [apply_move_finished gs pos h1]
  · have h1f : gs.is_finished = false := by
      revert h1; cases gs.is_finished <;> simp
    by_cases h2 : is_valid_move gs.board pos gs.current_player = true
    · rw [apply_move_ok_eq gs pos h1f h2] at h
      cases h
    · have h2f : is_valid_move gs.board pos gs.current_player = false := by
        revert h2; cases is_valid_move gs.board pos gs.current_player <;> simp
      rw [apply_move_invalid gs pos h1f h2f]

/-- C10: whenever `apply_move` returns an error, the state it leaves behind
is exactly the input state: board, history, mover and status untouched. -/
theorem C10_apply_move_atomic_on_error :
    ∀ (gs : GameState) (position : Position) (e : GameError),
      (apply_move gs position).1 = Except.error e →
      (apply_move gs position).2 = gs :=
  fun gs position e h => apply_move_error_state gs position e h

/-- C1: `apply_move` fails with GameFinished on a Finished state and with
InvalidMove on an illegal placement; otherwise it returns the flip set,
writes the mover's color at the position and on every flipped cell, appends
exactly one move record (mover, position, flip set), and leaves the current
mover unchanged. -/
theorem C1_apply_move_contract :
    ∀ (gs : GameState) (position : Position),
      (gs.is_finished = true →
        apply_move gs position = (Except.error GameError.GameFinished, gs)) ∧
      (gs.is_finished = false →
        is_valid_move gs.board position gs.current_player = false →
        apply_move gs position = (Except.error GameError.InvalidMove, gs)) ∧
      (gs.is_finished = false →
        is_valid_move gs.board position gs.current_player = true →
        (apply_move gs position).1 =
          Except.ok (get_flipped_positions gs.board position gs.current_player) ∧
        (apply_move gs position).2.board.get_cell position =
          some gs.current_player.to_cell ∧
        (∀ q ∈ get_flipped_positions gs.board position gs.current_player,
          (apply_move gs position).2.board.get_cell q =
            some gs.current_player.to_cell) ∧
        (apply_move gs position).2.move_history =
          gs.move_history ++ [⟨gs.current_player, position,
            get_flipped_positions gs.board position gs.current_player⟩] ∧
        (apply_move gs position).2.current_player = gs.current_player) := by
  intro gs position
  refine ⟨fun h => apply_move_finished gs position h,
    fun h1 h2 => apply_move_invalid gs position h1 h2, ?_⟩
  intro h1 h2
  have hempty : gs.board.is_empty position = true :=
    ((is_valid_move_iff gs.board position gs.current_player).mp h2).1
  have hspec := is_empty_spec gs.board position hempty
  have hposv : position.row < 8 ∧ position.col < 8 := ⟨hspec.1, hspec.2.1⟩
  rw [apply_move_ok_eq gs position h1 h2]
  refine ⟨rfl, ?_, ?_, rfl, rfl⟩
  · exact foldl_set_preserves _ _ _ _ hposv
      (get_set_same gs.board position gs.current_player.to_cell hposv)
  · intro q hq
    have hqv := flips_mem gs.board position gs.current_player q hq
    exact foldl_set_mem _ _ _ _ ⟨hqv.1, hqv.2.1⟩ hq

/-- Witness for C1: the GameFinished failure on a concrete finished state,
the InvalidMove failure at (0,0) on the fresh game, and the successful
application of (2,3) on the fresh game returning its flip set. -/
theorem C1_apply_move_contract_witness :
    apply_move finishedSample ⟨2, 3⟩ =
      (Except.error GameError.GameFinished, finishedSample) ∧
    apply_move GameState.new ⟨0, 0⟩ =
      (Except.error GameError.InvalidMove, GameState.new) ∧
    (apply_move GameState.new ⟨2, 3⟩).1 =
      Except.ok (get_flipped_positions GameState.new.board ⟨2, 3⟩
        GameState.new.current_player) :=
  ⟨(C1_apply_move_contract finishedSample ⟨2, 3⟩).1 (by decide),
   (C1_apply_move_contract GameState.new ⟨0, 0⟩).2.1 (by decide) (by decide),
   ((C1_apply_move_contract GameState.new ⟨2, 3⟩).2.2 (by decide) (by decide)).1⟩

/-- C2: for in-bounds positions, legality holds iff the cell is empty and
the flip set is non-empty; the flip set is the union, over all 8 directions
evaluated unconditionally, of the per-direction committed runs; every
returned position holds the opponent's color on the pre-move board; and a
zero-flip placement is illegal even onto an empty cell. -/
theorem C2_legality_and_flips :
    ∀ (b : Board) (player : Player) (position : Position),
      position.row < 8 → position.col < 8 →
      ((is_valid_move b position player = true ↔
         (b.is_empty position = true ∧
          get_flipped_positions b position player ≠ [])) ∧
       (get_flipped_positions b position player =
         (DIRECTIONS.map (fun d =>
           scan_direction b player.to_cell player.opposite.to_cell d.1 d.2
             ((position.row : Int) + d.1) ((position.col : Int) + d.2)
             [] 8)).flatten) ∧
       (∀ q ∈ get_flipped_positions b position player,
         b.get_cell q = some player.opposite.to_cell) ∧
       (get_flipped_positions b position player = [] →
         is_valid_move b position player = false)) := by
  intro b player position h1 h2
  refine ⟨is_valid_move_iff b position player,
    get_flipped_eq_join b position player, ?_, ?_⟩
  · intro q hq
    exact (flips_mem b position player q hq).2.2
  · intro hnil
    cases hval : is_valid_move b position player
    · rfl
    · have hc := (is_valid_move_iff b position player).mp hval
      exact (hc.2 hnil).elim

/-- Witness for C2 at the fresh board, Black, position (2,3): the legality
characterisation and the opponent-color property of the returned flips. -/
theorem C2_legality_and_flips_witness :
    (is_valid_move Board.new ⟨2, 3⟩ Player.Black = true ↔
      (Board.new.is_empty ⟨2, 3⟩ = true ∧
       get_flipped_positions Board.new ⟨2, 3⟩ Player.Black ≠ [])) ∧
    (∀ q ∈ get_flipped_positions Board.new ⟨2, 3⟩ Player.Black,
      Board.new.get_cell q = some Player.Black.opposite.to_cell) :=
  ⟨(C2_legality_and_flips Board.new Player.Black ⟨2, 3⟩
      (by decide) (by decide)).1,
   (C2_legality_and_flips Board.new Player.Black ⟨2, 3⟩
      (by decide) (by decide)).2.2.1⟩

/-- Witness for C10: at the concrete finished state, the move (2,3) errors
and the state comes back unchanged. -/
theorem C10_apply_move_atomic_on_error_witness :
    (apply_move finishedSample ⟨2, 3⟩).2 = finishedSample :=
  C10_apply_move_atomic_on_error finishedSample ⟨2, 3⟩ GameError.GameFinished
    (by decide)

lemma opposite_ne (p : Player) : p.opposite ≠ p := by
  cases p <;> simp [Player.opposite]

lemma handle_turn_active (gs : GameState)
    (h : has_valid_moves gs.board gs.current_player = true) :
    handle_turn gs = (false, gs) := by
  simp [handle_turn, h]

lemma handle_turn_pass (gs : GameState)
    (h1 : has_valid_moves gs.board gs.current_player = false)
    (h2 : has_valid_moves gs.board gs.current_player.opposite = true) :
    handle_turn gs = (true, gs.switch_player) := by
  simp [handle_turn, h1, GameState.switch_player, h2]

lemma handle_turn_finish (gs : GameState)
    (h1 : has_valid_moves gs.board gs.current_player = false)
    (h2 : has_valid_moves gs.board gs.current_player.opposite = false) :
    handle_turn gs =
      (true, gs.switch_player.finish (determine_winner gs.board)) := by
  simp [handle_turn, h1, GameState.switch_player, h2]

lemma determine_winner_spec (b : Board) :
    (determine_winner b = some Player.Black ↔
      b.count_pieces.2 < b.count_pieces.1) ∧
    (determine_winner b = some Player.White ↔
      b.count_pieces.1 < b.count_pieces.2) ∧
    (determine_winner b = none ↔ b.count_pieces.1 = b.count_pieces.2) := by
  unfold determine_winner
  rcases Nat.lt_trichotomy b.count_pieces.1 b.count_pieces.2 with h | h | h
  · rw [if_neg (by omega), if_pos h]
    exact ⟨⟨(fun he => by simp at he), (fun h2 => by omega)⟩,
      ⟨(fun _ => h), (fun _ => rfl)⟩,
      ⟨(fun he => by simp at he), (fun h2 => by omega)⟩⟩
  · rw [if_neg (by omega), if_neg (by omega)]
    exact ⟨⟨(fun he => by simp at he), (fun h2 => by omega)⟩,
      ⟨(fun he => by simp at he), (fun h2 => by omega)⟩,
      ⟨(fun _ => h), (fun _ => rfl)⟩⟩
  · rw [if_pos h]
    exact ⟨⟨(fun _ => h), (fun _ => rfl)⟩,
      ⟨(fun he => by simp at he), (fun h2 => by omega)⟩,
      ⟨(fun he => by simp at he), (fun h2 => by omega)⟩⟩

/-- C3: on a non-finished state, `handle_turn` is a no-op returning false
when the mover has a legal move; otherwise it switches the mover and
returns true, additionally finalizing to Finished with the computed winner
when the new mover has no move either; the returned boolean equals whether
the state changed; and the winner is the higher tally (none on a tie). -/
theorem C3_handle_turn_contract :
    ∀ gs : GameState, gs.is_finished = false →
      ((has_valid_moves gs.board gs.current_player = true →
          handle_turn gs = (false, gs)) ∧
       (has_valid_moves gs.board gs.current_player = false →
          (handle_turn gs).1 = true ∧
          (handle_turn gs).2.current_player = gs.current_player.opposite ∧
          (has_valid_moves gs.board gs.current_player.opposite = true →
            (handle_turn gs).2 = gs.switch_player) ∧
          (has_valid_moves gs.board gs.current_player.opposite = false →
            (handle_turn gs).2.game_status =
              GameStatus.Finished (determine_winner gs.board)
                gs.board.count_pieces)) ∧
       ((handle_turn gs).1 = true ↔ (handle_turn gs).2 ≠ gs) ∧
       (∀ b : Board,
         (determine_winner b = some Player.Black ↔
           b.count_pieces.2 < b.count_pieces.1) ∧
         (determine_winner b = some Player.White ↔
           b.count_pieces.1 < b.count_pieces.2) ∧
         (determine_winner b = none ↔
           b.count_pieces.1 = b.count_pieces.2))) := by
  intro gs _
  refine ⟨handle_turn_active gs, ?_, ?_, determine_winner_spec⟩
  · intro h1
    by_cases h2 : has_valid_moves gs.board gs.current_player.opposite = true
    · rw [handle_turn_pass gs h1 h2]
      exact ⟨rfl, rfl, (fun _ => rfl), (fun hc => by rw [hc] at h2; cases h2)⟩
    · have h2f : has_valid_moves gs.board gs.current_player.opposite = false := by
        revert h2; cases has_valid_moves gs.board gs.current_player.opposite <;> simp
      rw [handle_turn_finish gs h1 h2f]
      exact ⟨rfl, rfl, (fun hc => by rw [hc] at h2f; cases h2f), (fun _ => rfl)⟩
  · by_cases hmoves : has_valid_moves gs.board gs.current_player = true
    · rw [handle_turn_active gs hmoves]
      simp
    · have hmf : has_valid_moves gs.board gs.current_player = false := by
        revert hmoves; cases has_valid_moves gs.board gs.current_player <;> simp
      have hcp : (handle_turn gs).2.current_player = gs.current_player.opposite := by
        by_cases h2 : has_valid_moves gs.board gs.current_player.opposite = true
        · rw [handle_turn_pass gs hmf h2]; rfl
        · have h2f : has_valid_moves gs.board gs.current_player.opposite = false := by
            revert h2
            cases has_valid_moves gs.board gs.current_player.opposite <;> simp
          rw [handle_turn_finish gs hmf h2f]; rfl
      have h1t : (handle_turn gs).1 = true := by
        by_cases h2 : has_valid_moves gs.board gs.current_player.opposite = true
        · rw [handle_turn_pass gs hmf h2]
        · have h2f : has_valid_moves gs.board gs.current_player.opposite = false := by
            revert h2
            cases has_valid_moves gs.board gs.current_player.opposite <;> simp
          rw [handle_turn_finish gs hmf h2f]
      rw [h1t]
      simp only [true_iff]
      intro heq
      rw [heq] at hcp
      exact opposite_ne gs.current_player hcp.symm

/-- Witness for C3 at three concrete states: the no-op on the fresh game,
the pass (mover switch) where White is stuck, and the finalization on the
empty board. -/
theorem C3_handle_turn_contract_witness :
    handle_turn GameState.new = (false, GameState.new) ∧
    (handle_turn passSample).2 = passSample.switch_player ∧
    (handle_turn emptySample).2.game_status =
      GameStatus.Finished (determine_winner emptySample.board)
        emptySample.board.count_pieces :=
  ⟨(C3_handle_turn_contract GameState.new (by decide)).1 (by decide),
   ((C3_handle_turn_contract passSample (by decide)).2.1 (by decide)).2.2.1
     (by decide),
   ((C3_handle_turn_contract emptySample (by decide)).2.1 (by decide)).2.2.2
     (by decide)⟩

/-- Witness for C4 at a concrete Finished state: pause and resume are
no-ops there, pausing keeps it Finished, and a pause/resume/finish sequence
keeps the finished tag. -/
theorem C4_status_state_machine_witness :
    finishedSample.pause = finishedSample ∧
    finishedSample.resume = finishedSample ∧
    finishedSample.pause.is_finished = true ∧
    statusTag (applyStateOps
      [StateOp.pauseOp, StateOp.resumeOp, StateOp.finishOp none]
      finishedSample).game_status = StatusTag.finished :=
  ⟨C4_status_state_machine.2.2.1 finishedSample (by decide),
   C4_status_state_machine.2.2.2.1 finishedSample (by decide),
   C4_status_state_machine.2.2.2.2 finishedSample (by decide),
   C4_status_state_machine.2.1 finishedSample
     [StateOp.pauseOp, StateOp.resumeOp, StateOp.finishOp none] (by decide)⟩

/-- C5: RandomAI fails on a finished state, fails with NoValidMoves on an
empty legal-move list, and otherwise returns exactly the element at index
(move_count*7 + mover_ordinal*3) mod list length of the row-major legal
move list, where the ordinal is 0 for Black and 1 for White. -/
theorem C5_random_ai_selector :
    ∀ gs : GameState,
      (gs.is_finished = true →
        RandomAI_calculate_move gs = Except.error AIError.StrategyError) ∧
      (gs.is_finished = false →
        get_valid_moves gs.board gs.current_player = [] →
        RandomAI_calculate_move gs = Except.error AIError.NoValidMoves) ∧
      (gs.is_finished = false →
        get_valid_moves gs.board gs.current_player ≠ [] →
        (gs.get_move_count * 7 + gs.current_player.as_usize * 3) %
            (get_valid_moves gs.board gs.current_player).length <
          (get_valid_moves gs.board gs.current_player).length ∧
        RandomAI_calculate_move gs =
          Except.ok ((get_valid_moves gs.board gs.current_player).getD
            ((gs.get_move_count * 7 + gs.current_player.as_usize * 3) %
              (get_valid_moves gs.board gs.current_player).length)
            ⟨0, 0⟩)) ∧
      (Player.as_usize Player.Black = 0 ∧ Player.as_usize Player.White = 1) := by
  intro gs
  refine ⟨?_, ?_, ?_, rfl, rfl⟩
  · intro h
    simp [RandomAI_calculate_move, h]
  · intro h1 h2
    simp [RandomAI_calculate_move, h1, h2]
  · intro h1 h2
    have hlen : (get_valid_moves gs.board gs.current_player).length ≠ 0 := by
      intro hc
      exact h2 (List.length_eq_zero.mp hc)
    have hpos : 0 < (get_valid_moves gs.board gs.current_player).length :=
      Nat.pos_of_ne_zero hlen
    have hlt : (gs.get_move_count * 7 + gs.current_player.as_usize * 3) %
        (get_valid_moves gs.board gs.current_player).length <
        (get_valid_moves gs.board gs.current_player).length :=
      Nat.mod_lt _ hpos
    refine ⟨hlt, ?_⟩
    rw [List.getD_eq_getElem _ _ hlt]
    simp [RandomAI_calculate_move, h1, hlen]

/-- Witness for C5: the StrategyError on a finished state, the NoValidMoves
failure on the empty board, and the index formula on the fresh game. -/
theorem C5_random_ai_selector_witness :
    RandomAI_calculate_move finishedSample = Except.error AIError.StrategyError ∧
    RandomAI_calculate_move emptySample = Except.error AIError.NoValidMoves ∧
    RandomAI_calculate_move GameState.new =
      Except.ok ((get_valid_moves GameState.new.board
          GameState.new.current_player).getD
        ((GameState.new.get_move_count * 7 +
            GameState.new.current_player.as_usize * 3) %
          (get_valid_moves GameState.new.board
            GameState.new.current_player).length) ⟨0, 0⟩) :=
  ⟨(C5_random_ai_selector finishedSample).1 (by decide),
   (C5_random_ai_selector emptySample).2.1 (by decide) (by decide),
   (((C5_random_ai_selector GameState.new).2.2.1 (by decide) (by decide))).2⟩

lemma assoc_insert_length (l : List (Nat × AiBattleSession)) (id : Nat)
    (s : AiBattleSession) :
    (assoc_insert l id s).length ≤ l.length + 1 := by
  induction l with
  | nil => simp [assoc_insert]
  | cons kv rest ih =>
    by_cases h : kv.1 = id
    · simp [assoc_insert, h]
    · simp only [assoc_insert, h, if_false, List.length_cons]
      omega

lemma assoc_remove_length_le (l : List (Nat × AiBattleSession)) (id : Nat) :
    (assoc_remove l id).length ≤ l.length := by
  induction l with
  | nil => simp [assoc_remove]
  | cons kv rest ih =>
    by_cases h : kv.1 = id
    · simp only [assoc_remove, h, if_true, List.length_cons]
      omega
    · simp only [assoc_remove, h, if_false, List.length_cons]
      omega

lemma assoc_remove_length_of_lookup (l : List (Nat × AiBattleSession))
    (id : Nat) (s : AiBattleSession) (h : assoc_lookup l id = some s) :
    (assoc_remove l id).length + 1 = l.length := by
  induction l with
  | nil => simp [assoc_lookup] at h
  | cons kv rest ih =>
    by_cases hk : kv.1 = id
    · simp [assoc_remove, hk]
    · simp only [assoc_lookup, hk, if_false] at h
      simp only [assoc_remove, hk, if_false, List.length_cons]
      rw [← ih h]

lemma applyMgrOp_inv (m : AiBattleSessionManager) (op : MgrOp)
    (h : m.sessions.length ≤ m.max_sessions) :
    (applyMgrOp m op).sessions.length ≤ m.max_sessions ∧
    (applyMgrOp m op).max_sessions = m.max_sessions := by
  cases op with
  | createOp id d =>
    unfold applyMgrOp create_session
    by_cases hc : m.sessions.length ≥ m.max_sessions
    · simp only [hc, if_true]
      exact ⟨h, by trivial⟩
    · simp only [hc, if_false]
      have hins := assoc_insert_length m.sessions id (AiBattleSession.new d)
      exact ⟨by omega, by trivial⟩
  | removeOp id =>
    unfold applyMgrOp remove_session
    cases hl : assoc_lookup m.sessions id with
    | none => simp only [hl]; exact ⟨h, by trivial⟩
    | some s =>
      simp only [hl]
      have hrem := assoc_remove_length_le m.sessions id
      exact ⟨by omega, by trivial⟩

lemma applyMgrOps_inv (ops : List MgrOp) (m : AiBattleSessionManager)
    (h : m.sessions.length ≤ m.max_sessions) :
    (applyMgrOps ops m).sessions.length ≤ m.max_sessions ∧
    (applyMgrOps ops m).max_sessions = m.max_sessions := by
  induction ops generalizing m with
  | nil => exact ⟨h, rfl⟩
  | cons op rest ih =>
    have hstep := applyMgrOp_inv m op h
    have hrest := ih (applyMgrOp m op) (by rw [hstep.2]; exact hstep.1)
    refine ⟨?_, ?_⟩
    · simpa [applyMgrOps] using hstep.2 ▸ hrest.1
    · have h2 : (applyMgrOps rest (applyMgrOp m op)).max_sessions =
          (applyMgrOp m op).max_sessions := hrest.2
      simpa [applyMgrOps, hstep.2] using h2

/-- C6: `create_session` fails with the admission-denied error exactly when
the live count has reached the ceiling (in particular when it equals it);
after a successful `remove_session` the next create succeeds; and under any
sequence of create/remove requests the live count never exceeds the
ceiling. -/
theorem C6_admission_control :
    (∀ (m : AiBattleSessionManager) (id : Nat) (d : AiDifficulty),
      (create_session m id d).1 =
          Except.error (AiBattleError.MaxSessionsReached m.max_sessions) ↔
        m.max_sessions ≤ m.sessions.length) ∧
    (∀ (m : AiBattleSessionManager) (id : Nat) (d : AiDifficulty),
      m.sessions.length = m.max_sessions →
      (create_session m id d).1 =
        Except.error (AiBattleError.MaxSessionsReached m.max_sessions)) ∧
    (∀ (m : AiBattleSessionManager) (id id2 : Nat) (d : AiDifficulty)
        (s : AiBattleSession),
      m.sessions.length ≤ m.max_sessions →
      (remove_session m id).1 = Except.ok s →
      (create_session (remove_session m id).2 id2 d).1 = Except.ok id2) ∧
    (∀ (ops : List MgrOp) (m : AiBattleSessionManager),
      m.sessions.length ≤ m.max_sessions →
      (applyMgrOps ops m).sessions.length ≤ m.max_sessions) := by
  refine ⟨?_, ?_, ?_, ?_⟩
  · intro m id d
    by_cases hc : m.sessions.length ≥ m.max_sessions
    · constructor
      · intro _
        exact hc
      · intro _
        unfold create_session
        rw [if_pos hc]
    · constructor
      · intro hcon
        unfold create_session at hcon
        rw [if_neg hc] at hcon
        exact Except.noConfusion hcon
      · intro hle
        exact absurd hle hc
  · intro m id d heq
    unfold create_session
    have hc : m.sessions.length ≥ m.max_sessions := le_of_eq heq.symm
    rw [if_pos hc]
  · intro m id id2 d s hle hok
    cases hl : assoc_lookup m.sessions id with
    | none =>
      unfold remove_session at hok
      rw [hl] at hok
      cases hok
    | some s0 =>
      have h2 : (remove_session m id).2 =
          { m with sessions := assoc_remove m.sessions id } := by
        unfold remove_session
        rw [hl]
      rw [h2]
      have hpos := assoc_remove_length_of_lookup m.sessions id s0 hl
      unfold create_session
      have hc : ¬((assoc_remove m.sessions id).length ≥ m.max_sessions) := by
        omega
      rw [if_neg hc]
  · intro ops m h
    exact (applyMgrOps_inv ops m h).1

lemma apply_move_ok_first (gs : GameState) (pos : Position)
    (h1 : gs.is_finished = false)
    (h2 : is_valid_move gs.board pos gs.current_player = true) :
    (apply_move gs pos).1 =
      Except.ok (get_flipped_positions gs.board pos gs.current_player) := by
  rw [apply_move_ok_eq gs pos h1 h2]

lemma apply_move_ok_status (gs : GameState) (pos : Position)
    (h1 : gs.is_finished = false)
    (h2 : is_valid_move gs.board pos gs.current_player = true) :
    (apply_move gs pos).2.game_status = gs.game_status := by
  rw [apply_move_ok_eq gs pos h1 h2]

lemma apply_move_pair_eta (gs : GameState) (pos : Position) :
    apply_move gs pos = ((apply_move gs pos).1, (apply_move gs pos).2) := rfl

lemma make_player_move_accepted (oracle : AIOracle) (session : AiBattleSession)
    (position : Position)
    (h1 : session.is_finished = false)
    (h2 : session.is_player_turn = true)
    (h3 : session.ai_thinking = false)
    (h4 : is_valid_move session.game_state.board position
      session.current_player = true)
    (h5 : session.game_state.is_finished = false)
    (h6 : is_valid_move session.game_state.board position
      session.game_state.current_player = true) :
    make_player_move oracle session position =
      (let gs2 := (apply_move session.game_state position).2.switch_player
       let gs3 := if is_game_over gs2.board then
           gs2.finish (determine_winner gs2.board)
         else gs2
       if gs3.is_finished then
         (Except.ok ⟨true, position, none⟩,
          [{ session with
               game_state := gs3
               status := SessionStatus.Finished (status_winner gs3.game_status)
               current_player := gs3.current_player }])
       else
         let s1 : AiBattleSession := { session with
           game_state := gs3
           current_player := gs3.current_player }
         if s1.is_ai_turn = false then
           (Except.ok ⟨true, position, none⟩, [s1])
         else
           let sT := { s1 with ai_thinking := true }
           match process_ai_move oracle sT with
           | (Except.ok ai_position, s2) =>
             (Except.ok ⟨true, position, some ai_position⟩,
              [sT, { s2 with ai_thinking := false }])
           | (Except.error e, s2) =>
             (Except.error e, [sT, { s2 with ai_thinking := false }])) := by
  unfold make_player_move
  rw [h1, h2, h3, h4]
  rw [apply_move_pair_eta session.game_state position,
    apply_move_ok_first session.game_state position h5 h6]
  simp only [Bool.false_eq_true, if_false, Bool.true_eq_false]

lemma switch_player_status (g : GameState) :
    g.switch_player.game_status = g.game_status := rfl

lemma gs2_not_finished (session : AiBattleSession) (position : Position)
    (h5 : session.game_state.is_finished = false)
    (h6 : is_valid_move session.game_state.board position
      session.game_state.current_player = true) :
    ((apply_move session.game_state position).2.switch_player).is_finished
      = false := by
  have hsw : ((apply_move session.game_state position).2.switch_player).game_status
      = session.game_state.game_status := by
    rw [switch_player_status]
    exact apply_move_ok_status session.game_state position h5 h6
  unfold GameState.is_finished at h5 ⊢
  rw [hsw]
  exact h5

/-- C7: when an accepted human move makes the game terminal after the mover
switch, the session is persisted exactly once, as Finished, and the call
returns success with no opponent reply; when after advancement it is still
the human's (Black's) turn, the session is persisted exactly once and the
call returns success with no opponent move invoked (the reply does not
depend on the opponent oracle at all). -/
theorem C7_terminal_and_passback :
    ∀ (oracle : AIOracle) (session : AiBattleSession) (position : Position),
      session.is_finished = false →
      session.is_player_turn = true →
      session.ai_thinking = false →
      is_valid_move session.game_state.board position
        session.current_player = true →
      session.game_state.is_finished = false →
      is_valid_move session.game_state.board position
        session.game_state.current_player = true →
      ((is_game_over
          ((apply_move session.game_state position).2.switch_player).board
            = true →
        make_player_move oracle session position =
          (Except.ok ⟨true, position, none⟩,
           [{ session with
                game_state :=
                  ((apply_move session.game_state position).2.switch_player).finish
                    (determine_winner
                      ((apply_move session.game_state position).2.switch_player).board)
                status := SessionStatus.Finished
                  (determine_winner
                    ((apply_move session.game_state position).2.switch_player).board)
                current_player :=
                  ((apply_move session.game_state position).2.switch_player).current_player }])) ∧
       (is_game_over
          ((apply_move session.game_state position).2.switch_player).board
            = false →
        ((apply_move session.game_state position).2.switch_player).current_player
            = Player.Black →
        make_player_move oracle session position =
          (Except.ok ⟨true, position, none⟩,
           [{ session with
                game_state := (apply_move session.game_state position).2.switch_player
                current_player :=
                  ((apply_move session.game_state position).2.switch_player).current_player }]))) := by
  intro oracle session position h1 h2 h3 h4 h5 h6
  have hacc := make_player_move_accepted oracle session position h1 h2 h3 h4 h5 h6
  constructor
  · intro hover
    rw [hacc]
    simp only [hover, if_true]
    simp [GameState.finish, GameState.is_finished, status_winner]
  · intro hover hcp
    rw [hacc]
    simp only [hover, Bool.false_eq_true, if_false]
    have hst := gs2_not_finished session position h5 h6
    simp only [hst, Bool.false_eq_true, if_false]
    have hait : ({ session with
        game_state := (apply_move session.game_state position).2.switch_player
        current_player :=
          ((apply_move session.game_state position).2.switch_player).current_player }
          : AiBattleSession).is_ai_turn = false := by
      simp [AiBattleSession.is_ai_turn, hcp, h3]
    simp only [hait, if_true]

/-- Witness for C7 at two concrete accepted moves: Black's (0,2) on
`endSession` ends the game (success, one Finished persist, no reply), and
Black's (0,2) on the desynchronised `desyncSession` passes the turn back
(success, one persist, no opponent call). -/
theorem C7_terminal_and_passback_witness :
    make_player_move failingOracle endSession ⟨0, 2⟩ =
      (Except.ok ⟨true, ⟨0, 2⟩, none⟩,
       [{ endSession with
            game_state :=
              ((apply_move endSession.game_state ⟨0, 2⟩).2.switch_player).finish
                (determine_winner
                  ((apply_move endSession.game_state ⟨0, 2⟩).2.switch_player).board)
            status := SessionStatus.Finished
              (determine_winner
                ((apply_move endSession.game_state ⟨0, 2⟩).2.switch_player).board)
            current_player :=
              ((apply_move endSession.game_state ⟨0, 2⟩).2.switch_player).current_player }]) ∧
    make_player_move failingOracle desyncSession ⟨0, 2⟩ =
      (Except.ok ⟨true, ⟨0, 2⟩, none⟩,
       [{ desyncSession with
            game_state := (apply_move desyncSession.game_state ⟨0, 2⟩).2.switch_player
            current_player :=
              ((apply_move desyncSession.game_state ⟨0, 2⟩).2.switch_player).current_player }]) :=
  ⟨(C7_terminal_and_passback failingOracle endSession ⟨0, 2⟩ (by decide)
      (by decide) (by decide) (by decide) (by decide) (by decide)).1 (by decide),
   (C7_terminal_and_passback failingOracle desyncSession ⟨0, 2⟩ (by decide)
      (by decide) (by decide) (by decide) (by decide) (by decide)).2
     (by decide) (by decide)⟩

lemma add_move_record_game_state (s : AiBattleSession) (r : MoveRecord) :
    (s.add_move_record r).game_state = s.game_state := rfl

lemma apply_move_writes_mover (gs : GameState) (pos : Position)
    (h1 : gs.is_finished = false)
    (h2 : is_valid_move gs.board pos gs.current_player = true) :
    (apply_move gs pos).2.board.get_cell pos = some gs.current_player.to_cell := by
  have hempty : gs.board.is_empty pos = true :=
    ((is_valid_move_iff gs.board pos gs.current_player).mp h2).1
  have hspec := is_empty_spec gs.board pos hempty
  have hposv : pos.row < 8 ∧ pos.col < 8 := ⟨hspec.1, hspec.2.1⟩
  rw [apply_move_ok_eq gs pos h1 h2]
  exact foldl_set_preserves _ _ _ _ hposv
    (get_set_same gs.board pos gs.current_player.to_cell hposv)

lemma apply_move_history (gs : GameState) (pos : Position)
    (h1 : gs.is_finished = false)
    (h2 : is_valid_move gs.board pos gs.current_player = true) :
    (apply_move gs pos).2.move_history =
      gs.move_history ++ [⟨gs.current_player, pos,
        get_flipped_positions gs.board pos gs.current_player⟩] := by
  rw [apply_move_ok_eq gs pos h1 h2]

lemma process_ai_move_error_keeps_game_state (oracle : AIOracle)
    (s : AiBattleSession) (e : AiBattleError) (s2 : AiBattleSession)
    (h : process_ai_move oracle s = (Except.error e, s2)) :
    s2.game_state = s.game_state := by
  unfold process_ai_move at h
  cases ho : oracle s.game_state s.ai_difficulty with
  | error e0 =>
    simp only [ho] at h
    have h2 := congrArg Prod.snd h
    simp at h2
    rw [← h2]
  | ok ai_result =>
    simp only [ho] at h
    rcases hap : apply_move
        (s.add_move_record ⟨Player.White, ai_result.position,
          some ai_result.thinking_time_ms⟩).game_state
        ai_result.position with ⟨res, gsX⟩
    rw [add_move_record_game_state] at hap
    simp only [add_move_record_game_state, hap] at h
    cases res with
    | ok flips =>
      -- the success branch cannot produce an error result
      exfalso
      have h1 := congrArg Prod.fst h
      simp at h1
    | error e1 =>
      have hstate : gsX = s.game_state := by
        have hfst : (apply_move s.game_state ai_result.position).1 =
            Except.error e1 := by rw [hap]
        have := apply_move_error_state s.game_state ai_result.position e1 hfst
        rw [hap] at this
        exact this
      have h2 := congrArg Prod.snd h
      simp only [] at h2
      rw [← h2, hstate]

/-- C8: when an accepted human move hands the turn to the opponent and the
opponent-move computation fails, the call persists the thinking-flagged
session and then the final session with the flag cleared, surfaces the
failure, and the final persisted session still contains the applied human
move: the mover's color at the played position and the appended history
entry — the human move is never rolled back. -/
theorem C8_no_rollback_on_ai_failure :
    ∀ (oracle : AIOracle) (session : AiBattleSession) (position : Position),
      session.is_finished = false →
      session.is_player_turn = true →
      session.ai_thinking = false →
      is_valid_move session.game_state.board position
        session.current_player = true →
      session.game_state.is_finished = false →
      is_valid_move session.game_state.board position
        session.game_state.current_player = true →
      is_game_over
        ((apply_move session.game_state position).2.switch_player).board
          = false →
      ((apply_move session.game_state position).2.switch_player).current_player
          = Player.White →
      ∀ (e : AiBattleError) (s2 : AiBattleSession),
        process_ai_move oracle
          { { session with
                game_state := (apply_move session.game_state position).2.switch_player
                current_player :=
                  ((apply_move session.game_state position).2.switch_player).current_player }
            with ai_thinking := true } = (Except.error e, s2) →
        make_player_move oracle session position =
          (Except.error e,
           [{ { session with
                  game_state := (apply_move session.game_state position).2.switch_player
                  current_player :=
                    ((apply_move session.game_state position).2.switch_player).current_player }
              with ai_thinking := true },
            { s2 with ai_thinking := false }]) ∧
        ({ s2 with ai_thinking := false }).ai_thinking = false ∧
        ({ s2 with ai_thinking := false }).game_state.board.get_cell position =
          some session.game_state.current_player.to_cell ∧
        ({ s2 with ai_thinking := false }).game_state.move_history =
          session.game_state.move_history ++
            [⟨session.game_state.current_player, position,
              get_flipped_positions session.game_state.board position
                session.game_state.current_player⟩] := by
  intro oracle session position h1 h2 h3 h4 h5 h6 hover hcp e s2 hproc
  have hacc := make_player_move_accepted oracle session position h1 h2 h3 h4 h5 h6
  have hs2gs : s2.game_state =
      (apply_move session.game_state position).2.switch_player :=
    process_ai_move_error_keeps_game_state oracle _ e s2 hproc
  refine ⟨?_, rfl, ?_, ?_⟩
  · rw [hacc]
    simp only [hover, Bool.false_eq_true, if_false]
    have hst := gs2_not_finished session position h5 h6
    simp only [hst, Bool.false_eq_true, if_false]
    have hait : ({ session with
        game_state := (apply_move session.game_state position).2.switch_player
        current_player :=
          ((apply_move session.game_state position).2.switch_player).current_player }
          : AiBattleSession).is_ai_turn = true := by
      simp [AiBattleSession.is_ai_turn, hcp, h3]
    simp only [hait, Bool.true_eq_false, if_false]
    rw [hproc]
  · show s2.game_state.board.get_cell position =
      some session.game_state.current_player.to_cell
    rw [hs2gs]
    show (apply_move session.game_state position).2.board.get_cell position =
      some session.game_state.current_player.to_cell
    exact apply_move_writes_mover session.game_state position h5 h6
  · show s2.game_state.move_history =
      session.game_state.move_history ++
        [⟨session.game_state.current_player, position,
          get_flipped_positions session.game_state.board position
            session.game_state.current_player⟩]
    rw [hs2gs]
    show (apply_move session.game_state position).2.move_history =
      session.game_state.move_history ++
        [⟨session.game_state.current_player, position,
          get_flipped_positions session.game_state.board position
            session.game_state.current_player⟩]
    exact apply_move_history session.game_state position h5 h6

/-- Witness for C8: on the fresh session, Black plays (2,3), the opponent
service always fails; the call surfaces the failure after persisting the
thinking-flagged session and the cleared final session, and that final
session still shows Black's stone at (2,3). -/
theorem C8_no_rollback_on_ai_failure_witness :
    make_player_move failingOracle (AiBattleSession.new AiDifficulty.Easy)
        ⟨2, 3⟩ =
      (Except.error AiBattleError.AiThinkingError,
       [sTSample, { sTSample with ai_thinking := false }]) ∧
    ({ sTSample with ai_thinking := false }).game_state.board.get_cell ⟨2, 3⟩ =
      some (AiBattleSession.new AiDifficulty.Easy).game_state.current_player.to_cell :=
  have h := C8_no_rollback_on_ai_failure failingOracle
    (AiBattleSession.new AiDifficulty.Easy) ⟨2, 3⟩ (by decide) (by decide)
    (by decide) (by decide) (by decide) (by decide) (by decide) (by decide)
    AiBattleError.AiThinkingError sTSample rfl
  ⟨h.1, h.2.2.1⟩

lemma fb_loop_no_fallback (delay M : Nat) (primary : AttemptOracle)
    (pe : Nat → AIError) (hp : ∀ n, primary n = Except.error (pe n))
    (fb : Option AttemptOracle) (attempts : Nat) :
    fb_loop ⟨false, M, delay⟩ primary fb attempts =
      Except.error (pe (attempts + 1), attempts + 1) := by
  rw [fb_loop.eq_def]
  simp only [hp]
  rw [dif_neg (fun hcon => Bool.noConfusion hcon.1)]

lemma fb_loop_all_fail (delay M : Nat) (primary fbf : AttemptOracle)
    (pe fe : Nat → AIError)
    (hp : ∀ n, primary n = Except.error (pe n))
    (hf : ∀ n, fbf n = Except.error (fe n)) :
    ∀ (k attempts : Nat), M = attempts + k + 1 →
      fb_loop ⟨true, M, delay⟩ primary (some fbf) attempts =
        Except.error (pe M, M) := by
  intro k
  induction k with
  | zero =>
    intro attempts hM
    rw [fb_loop.eq_def]
    simp only [hp]
    rw [dif_neg ?hneg]
    case hneg =>
      intro hcon
      have hlt : attempts + 1 < M := hcon.2
      omega
    rw [show attempts + 1 = M from by omega]
  | succ k2 ih =>
    intro attempts hM
    rw [fb_loop.eq_def]
    simp only [hp]
    rw [dif_pos ⟨trivial, (by omega : attempts + 1 < M)⟩]
    simp only [hf]
    exact ih (attempts + 1) (by omega)

/-- C9 counterexample: with fallback disabled and maximum attempt count 3,
an always-failing primary makes `calculate_move_with_fallback` fail after
exactly one primary attempt (the terminal error carries attempt count 1,
not 3): the retry does not happen regardless of the fallback switch. -/
theorem C9_retry_counterexample :
    calculate_move_with_fallback ⟨false, 3, 1000⟩ failingPrimary
        (some failingFallback) = Except.error (AIError.Timeout, 1) ∧
    (1 : Nat) ≠ 3 := by
  constructor
  · exact fb_loop_no_fallback 1000 3 failingPrimary (fun _ => AIError.Timeout)
      (fun _ => rfl) (some failingFallback) 0
  · decide

/-- C9 amended: the fixed-delay retry of the primary happens only while
fallback is enabled and attempts remain; with fallback enabled, M ≥ 1
maximum attempts and both adapters always failing, the call fails with the
last primary error and attempt count M after exactly M primary attempts;
with fallback disabled it fails after exactly 1 primary attempt. -/
theorem C9_retry_policy_amended :
    ∀ (M delay : Nat) (primary fbf : AttemptOracle) (pe fe : Nat → AIError),
      (∀ n, primary n = Except.error (pe n)) →
      (∀ n, fbf n = Except.error (fe n)) →
      (1 ≤ M →
        calculate_move_with_fallback ⟨true, M, delay⟩ primary (some fbf) =
          Except.error (pe M, M)) ∧
      calculate_move_with_fallback ⟨false, M, delay⟩ primary (some fbf) =
        Except.error (pe 1, 1) := by
  intro M delay primary fbf pe fe hp hf
  constructor
  · intro hM
    exact fb_loop_all_fail delay M primary fbf pe fe hp hf (M - 1) 0 (by omega)
  · exact fb_loop_no_fallback delay M primary pe hp (some fbf) 0

/-- Witness for C9's amended statement: with both adapters failing, max
attempts 3, the terminal error carries the last primary error and the
attempt count 3. -/
theorem C9_retry_policy_amended_witness :
    calculate_move_with_fallback ⟨true, 3, 5⟩ failingPrimary
        (some failingFallback) = Except.error (AIError.Timeout, 3) ∧
    calculate_move_with_fallback ⟨false, 3, 5⟩ failingPrimary
        (some failingFallback) = Except.error (AIError.Timeout, 1) :=
  have h := C9_retry_policy_amended 3 5 failingPrimary failingFallback
    (fun _ => AIError.Timeout) (fun _ => AIError.ServiceUnavailable)
    (fun _ => rfl) (fun _ => rfl)
  ⟨h.1 (by decide), h.2⟩

/-- Witness for C6 at a one-slot registry holding one session: the next
create is denied, after removing the session a create succeeds, and a
concrete create/remove sequence keeps the count within the ceiling. -/
theorem C6_admission_control_witness :
    (create_session mgrSample 1 AiDifficulty.Easy).1 =
      Except.error (AiBattleError.MaxSessionsReached 1) ∧
    (create_session (remove_session mgrSample 0).2 1 AiDifficulty.Easy).1 =
      Except.ok 1 ∧
    (applyMgrOps [MgrOp.createOp 5 AiDifficulty.Easy, MgrOp.removeOp 0]
      mgrSample).sessions.length ≤ 1 :=
  ⟨C6_admission_control.2.1 mgrSample 1 AiDifficulty.Easy (by decide),
   C6_admission_control.2.2.1 mgrSample 0 1 AiDifficulty.Easy
     (AiBattleSession.new AiDifficulty.Easy) (by decide) rfl,
   C6_admission_control.2.2.2
     [MgrOp.createOp 5 AiDifficulty.Easy, MgrOp.removeOp 0] mgrSample
     (by decide)⟩

end Reversi
